import Mathlib

/-!
# Verification of the traderai configuration pipeline (`src/core/config.py`)

This file gives a shallow embedding of the configuration loading, merging and
validation pipeline of the repository and proves/refutes the specification
claims about it.

Modelling conventions:
* Python dictionaries are insertion-ordered association lists
  `List (String × Yaml)`; `d[k] = v` is `setKey`, `k in d` is `hasKey`,
  `d.get(k)` / `d[k]` are read through `getKey`.
* YAML values are the inductive type `Yaml` (strings, numbers, booleans,
  null, lists, mappings).  Numbers are exact rationals `ℚ`; the pipeline
  only compares them against the bounds 0 and 1, where rational and IEEE
  semantics agree on the inputs considered here.
* Python exceptions become the `PyError` type and fallible code returns
  `Except PyError α`.
* The filesystem and process environment are explicit (`FileState`,
  association lists of environment variables, `World`).
-/

/-- A YAML value, as produced by `yaml.safe_load`. -/
inductive Yaml where
  | str : String → Yaml
  | num : ℚ → Yaml
  | bool : Bool → Yaml
  | null : Yaml
  | list : List Yaml → Yaml
  | dict : List (String × Yaml) → Yaml

/-- Reading a key of a Python dict (first — and only, for genuine Python
dicts — binding wins). -/
def getKey : List (String × Yaml) → String → Option Yaml
  | [], _ => none
  | (k, v) :: rest, key => if k = key then some v else getKey rest key

/-- Python's `key in d` membership test for dicts. -/
def hasKey (d : List (String × Yaml)) (key : String) : Bool :=
  (getKey d key).isSome

/-- Python dict assignment `d[key] = v`: replaces in place when the key is
present, appends otherwise (insertion order preserved). -/
def setKey : List (String × Yaml) → String → Yaml → List (String × Yaml)
  | [], key, v => [(key, v)]
  | (k, w) :: rest, key, v =>
      if k = key then (k, v) :: rest else (k, w) :: setKey rest key v

/-- Python truthiness of a YAML value, used by `yaml.safe_load(f) or {}`. -/
def pyTruthy : Yaml → Bool
  | Yaml.str s => !s.isEmpty
  | Yaml.num q => !(q = 0)
  | Yaml.bool b => b
  | Yaml.null => false
  | Yaml.list xs => !xs.isEmpty
  | Yaml.dict es => !es.isEmpty

/-- Python exceptions relevant to the pipeline.  `validationError` stands for
pydantic's `ValidationError` (a `ValueError` subclass); the remaining
constructors are the corresponding builtin exception with its message. -/
inductive PyError where
  | valueError : String → PyError
  | keyError : String → PyError
  | attributeError : String → PyError
  | typeError : String → PyError
  | validationError : String → PyError
deriving DecidableEq

/-- `str(e)` of a `PyError`: `str(KeyError(k))` is the repr of the key. -/
def pyErrMsg : PyError → String
  | PyError.valueError m => m
  | PyError.keyError k => "'" ++ k ++ "'"
  | PyError.attributeError m => m
  | PyError.typeError m => m
  | PyError.validationError m => m

/-- State of one file on disk: absent, parsing to a YAML document (an empty
document parses to `null`), or failing to parse with a diagnostic. -/
inductive FileState where
  | missing : FileState
  | doc : Yaml → FileState
  | malformed : String → FileState

/-- `load_yaml` (config.py lines 78-86): missing file → `{}`; parsed
document `v` → `v or {}` (Python truthiness, so an empty/falsy document
also yields `{}`); malformed YAML → `ValueError` naming the file and
wrapping the parser diagnostic. -/
def load_yaml (fs : FileState) (path : String) : Except PyError Yaml :=
  match fs with
  | FileState.missing => Except.ok (Yaml.dict [])
  | FileState.doc v => Except.ok (if pyTruthy v then v else Yaml.dict [])
  | FileState.malformed diag =>
      Except.error (PyError.valueError
        ("Error parsing YAML file " ++ path ++ ": " ++ diag))

/-- `needle` occurs at the head of the haystack. (Helper for substring
statements about error messages.) -/
def subAt : List Char → List Char → Bool
  | [], _ => true
  | _ :: _, [] => false
  | a :: as, b :: bs => a == b && subAt as bs

/-- `needle` occurs somewhere in the haystack. -/
def subAny (needle : List Char) : List Char → Bool
  | [] => needle.isEmpty
  | h :: t => subAt needle (h :: t) || subAny needle t

/-- `needle` is a contiguous substring of `hay`. -/
def strHasSub (hay needle : String) : Bool :=
  subAny needle.toList hay.toList

/-!
## Module-level name resolution (config.py lines 13-76)

Python evaluates the annotations in a pydantic class body when the `class`
statement executes.  The classes of `config.py` are declared in source
order; each entry lists the user-defined configuration-class names its body
references.  `StrategyConfig` and `RiskPolicy` are imported from
`core.types` before any class is declared.
-/

/-- The configuration classes of `config.py`, in declaration order, with the
class names referenced from their bodies. -/
def moduleClassDefs : List (String × List String) :=
  [ ("DataProviderConfig", []),
    ("CacheConfig", []),
    ("RiskConfig", []),
    ("TradingConfig", ["RiskConfig"]),
    ("AppConfig", []),
    ("Settings", ["AppConfig", "DataConfig", "TradingConfig",
                  "StrategyConfig", "RiskPolicy"]),
    ("DataConfig", ["DataProviderConfig", "CacheConfig"]) ]

/-- Names already bound before the first class statement runs (imports at
lines 7-8 of config.py). -/
def importedTypeNames : List String := ["Environment", "StrategyConfig", "RiskPolicy"]

/-- Executes the class statements in order; returns the first
`(class, referenced-name)` pair whose reference is not yet bound, or `none`
when all annotations resolve. -/
def firstUnresolved : List (String × List String) → List String → Option (String × String)
  | [], _ => none
  | (name, refs) :: rest, env =>
      match refs.find? (fun r => !env.contains r) with
      | some r => some (name, r)
      | none => firstUnresolved rest (name :: env)

/-!
## Recursive merger (`merge_configs`, config.py lines 88-96)

```
def merge_configs(base, override):
    result = base.copy()
    for key, value in override.items():
        if isinstance(value, dict) and key in result:
            result[key] = merge_configs(result[key], value)
        else:
            result[key] = value
    return result
```

`mergeLoop result ov` is the `for` loop; `mergeVal b ov` is a recursive call
`merge_configs(b, ov)` whose first argument is an arbitrary runtime value:
* `b` a dict: run the loop on a copy of its bindings;
* `b` a list: `b.copy()` succeeds, but the first loop iteration raises
  (`result[key]` on a list with a string key is a `TypeError`), so the call
  only returns when the override is empty;
* `b` a scalar or `None`: `b.copy()` itself raises `AttributeError`.
A crash anywhere is `none`; it propagates as the Python exception would.
-/

mutual

def mergeVal : Yaml → List (String × Yaml) → Option Yaml
  | Yaml.dict b, ov => (mergeLoop b ov).map Yaml.dict
  | Yaml.list l, ov => if ov.isEmpty then some (Yaml.list l) else none
  | _, _ => none
termination_by _ ov => (sizeOf ov, 1)

def mergeLoop : List (String × Yaml) → List (String × Yaml) → Option (List (String × Yaml))
  | result, [] => some result
  | result, (key, Yaml.dict d) :: rest =>
      match getKey result key with
      | some bv =>
          match mergeVal bv d with
          | some m => mergeLoop (setKey result key m) rest
          | none => none
      | none => mergeLoop (setKey result key (Yaml.dict d)) rest
  | result, (key, value) :: rest => mergeLoop (setKey result key value) rest
termination_by _ ov => (sizeOf ov, 0)

end

/-- `merge_configs` on two dicts (the only way the program calls it at top
level). -/
def merge_configs (base override : List (String × Yaml)) :
    Option (List (String × Yaml)) :=
  mergeLoop base override

/-- A YAML scalar (string, number, boolean or null): a value with no `.copy()`
method, so merging a mapping onto it crashes. -/
def yamlIsScalar : Yaml → Bool
  | Yaml.str _ => true
  | Yaml.num _ => true
  | Yaml.bool _ => true
  | Yaml.null => true
  | _ => false

/-!
## Python `str()` / `repr()` of YAML values

Needed for the markets line (config.py line 152), which calls `.__str__()`
on whatever `os.getenv` returned.  `str` of a string is the string itself;
inside containers elements are shown with `repr`, which quotes strings.
Numbers are shown as integers when integral; the repr of a non-integral
rational is approximated by `num/den` (never reached by any theorem below —
Python would print a decimal expansion).
-/

/-- Repr of a number: integral values print like Python ints. -/
def numRepr (q : ℚ) : String :=
  if q.den = 1 then toString q.num else toString q.num ++ "/" ++ toString q.den

mutual

/-- Python `repr(v)`. -/
def pyReprY : Yaml → String
  | Yaml.str s => "'" ++ s ++ "'"
  | Yaml.num q => numRepr q
  | Yaml.bool b => if b then "True" else "False"
  | Yaml.null => "None"
  | Yaml.list xs => "[" ++ String.intercalate ", " (reprList xs) ++ "]"
  | Yaml.dict es => "\x7b" ++ String.intercalate ", " (reprEntries es) ++ "\x7d"
termination_by v => (sizeOf v, 0)

/-- Reprs of the elements of a list. -/
def reprList : List Yaml → List String
  | [] => []
  | x :: xs => pyReprY x :: reprList xs
termination_by xs => (sizeOf xs, 0)

/-- Reprs `'k': v` of the entries of a dict. -/
def reprEntries : List (String × Yaml) → List String
  | [] => []
  | (k, v) :: es => ("'" ++ k ++ "': " ++ pyReprY v) :: reprEntries es
termination_by es => (sizeOf es, 0)

end

/-- Python `str(v)`. -/
def pyStrY : Yaml → String
  | Yaml.str s => s
  | v => pyReprY v

/-!
## Number parsing (Python `float(...)` and `int(...)` on strings)

Models the builtin conversions applied to environment-variable strings
(config.py lines 153-157).  The grammar is Python's decimal float literal:
optional surrounding whitespace, optional sign, digits with an optional
fractional part, optional exponent.  (The special spellings `inf`/`nan` and
digit-group underscores are outside the number domain of this model.)
-/

/-- Numeric value of a digit run. -/
def digitsVal : List Char → ℕ
  | [] => 0
  | c :: cs => digitsVal cs + c.toNat.sub 48 * 10 ^ cs.length

/-- Splits `cs` at the first `e`/`E`, returning the mantissa part and, when an
exponent marker is present, the part after it. -/
def splitAtExp : List Char → List Char × Option (List Char)
  | [] => ([], none)
  | c :: cs =>
      if c = 'e' ∨ c = 'E' then ([], some cs)
      else
        let r := splitAtExp cs
        (c :: r.1, r.2)

/-- Parses an unsigned digit run (for exponents and `int()`). -/
def parseDigits (cs : List Char) : Option ℕ :=
  if cs.isEmpty then none
  else if cs.all Char.isDigit then some (digitsVal cs) else none

/-- Parses an optionally signed digit run. -/
def parseSignedDigits : List Char → Option ℤ
  | '+' :: cs => (parseDigits cs).map Int.ofNat
  | '-' :: cs => (parseDigits cs).map (fun n => -(Int.ofNat n))
  | cs => (parseDigits cs).map Int.ofNat

/-- Parses an unsigned mantissa `digits [. digits]` / `. digits` to a
rational. -/
def parseMantissa (cs : List Char) : Option ℚ :=
  let intPart := cs.takeWhile Char.isDigit
  let rest := cs.dropWhile Char.isDigit
  match rest with
  | [] => if intPart.isEmpty then none else some (digitsVal intPart : ℚ)
  | '.' :: frac =>
      if frac.all Char.isDigit then
        if intPart.isEmpty ∧ frac.isEmpty then none
        else some ((digitsVal intPart : ℚ)
          + (digitsVal frac : ℚ) / 10 ^ frac.length)
      else none
  | _ => none

/-- Applies a decimal exponent. -/
def applyExp (q : ℚ) (e : ℤ) : ℚ :=
  if 0 ≤ e then q * 10 ^ e.toNat else q / 10 ^ (-e).toNat

/-- Parses an unsigned float `mantissa [exponent]`. -/
def parseUnsignedFloat (cs : List Char) : Option ℚ :=
  let p := splitAtExp cs
  match parseMantissa p.1 with
  | none => none
  | some m =>
      match p.2 with
      | none => some m
      | some ecs =>
          match parseSignedDigits ecs with
          | none => none
          | some e => some (applyExp m e)

/-- Python's surrounding-whitespace strip, over the character list. -/
def pyStrip (s : String) : List Char :=
  (((s.toList.dropWhile Char.isWhitespace).reverse.dropWhile
      Char.isWhitespace).reverse)

/-- Python `float(s)` on a string, as an exact rational. -/
def pyFloat (s : String) : Option ℚ :=
  match pyStrip s with
  | '+' :: cs => parseUnsignedFloat cs
  | '-' :: cs => (parseUnsignedFloat cs).map Neg.neg
  | cs => parseUnsignedFloat cs

/-- Python `int(s)` on a string (base 10). -/
def pyInt (s : String) : Option ℤ :=
  parseSignedDigits (pyStrip s)

/-- Python `int(q)` on a number: truncation toward zero. -/
def truncInt (q : ℚ) : ℤ :=
  if 0 ≤ q then q.floor else -((-q).floor)

/-!
## Environment override builder (config.py lines 133-160)

The second `merge_configs` call merges an override dict literal built from
`os.getenv` lookups onto the already-merged tree.  Python evaluates the
literal eagerly and in source order (`app`, then `data`, then `trading`),
and the default argument of `os.getenv(var, default_expr)` is evaluated
even when the variable is set — so a crash in a fallback `.get` chain
happens regardless of the environment.  Each `Except` bind below mirrors one
sub-expression in that order.
-/

/-- `os.getenv` over the process environment. -/
def lookupEnv : List (String × String) → String → Option String
  | [], _ => none
  | (k, v) :: rest, key => if k = key then some v else lookupEnv rest key

/-- Python `v.get(k)` (default `None`): only dicts have `.get`. -/
def dGet (v : Yaml) (k : String) : Except PyError Yaml :=
  match v with
  | Yaml.dict es => Except.ok ((getKey es k).getD Yaml.null)
  | _ => Except.error (PyError.attributeError ("object has no attribute get: " ++ k))

/-- Python `v.get(k, dflt)`: only dicts have `.get`. -/
def dGetD (v : Yaml) (k : String) (dflt : Yaml) : Except PyError Yaml :=
  match v with
  | Yaml.dict es => Except.ok ((getKey es k).getD dflt)
  | _ => Except.error (PyError.attributeError ("object has no attribute get: " ++ k))

/-- Python `s.split(",")` over the character list (one group per comma;
the empty string yields `[""]`, exactly as in Python). -/
def splitCommaL : List Char → List (List Char)
  | [] => [[]]
  | x :: xs =>
      match splitCommaL xs, decide (x = ',') with
      | r, true => [] :: r
      | [], false => [[x]]
      | g :: gs, false => (x :: g) :: gs

/-- Python `s.split(",")`. -/
def pySplitComma (s : String) : List String :=
  (splitCommaL s.toList).map (fun cs => String.mk cs)

/-- The markets line (config.py line 152):
`os.getenv("MARKETS", fallback).__str__().split(",")`.  When `MARKETS` is
set this splits the variable on commas; when unset it stringifies the
fallback value (typically a list) and splits *that* on commas. -/
def marketsValue (menv : Option String) (fallback : Yaml) : List String :=
  pySplitComma (pyStrY (match menv with | some s => Yaml.str s | none => fallback))

/-- `float(s)` raising `ValueError` on failure. -/
def strToFloatE (s : String) : Except PyError ℚ :=
  match pyFloat s with
  | some q => Except.ok q
  | none => Except.error (PyError.valueError
      ("could not convert string to float: '" ++ s ++ "'"))

/-- `int(s)` raising `ValueError` on failure. -/
def strToIntE (s : String) : Except PyError ℤ :=
  match pyInt s with
  | some n => Except.ok n
  | none => Except.error (PyError.valueError
      ("invalid literal for int() with base 10: '" ++ s ++ "'"))

/-- `float(v)` on an arbitrary runtime value (the fallback of the numeric
`os.getenv` calls). -/
def yamlToFloat : Yaml → Except PyError ℚ
  | Yaml.num q => Except.ok q
  | Yaml.str s => strToFloatE s
  | Yaml.bool b => Except.ok (if b then 1 else 0)
  | Yaml.null => Except.error (PyError.typeError
      "float() argument must be a string or a real number, not NoneType")
  | _ => Except.error (PyError.typeError
      "float() argument must be a string or a real number")

/-- `int(v)` on an arbitrary runtime value. -/
def yamlToInt : Yaml → Except PyError ℤ
  | Yaml.num q => Except.ok (truncInt q)
  | Yaml.str s => strToIntE s
  | Yaml.bool b => Except.ok (if b then 1 else 0)
  | Yaml.null => Except.error (PyError.typeError
      "int() argument must be a string or a number, not NoneType")
  | _ => Except.error (PyError.typeError
      "int() argument must be a string or a number")

/-- `float(os.getenv(var, fallback))`: the environment string when set, else
the already-evaluated fallback value. -/
def toFloatEnv (menv : Option String) (fb : Yaml) : Except PyError ℚ :=
  match menv with
  | some s => strToFloatE s
  | none => yamlToFloat fb

/-- `int(os.getenv(var, fallback))`. -/
def toIntEnv (menv : Option String) (fb : Yaml) : Except PyError ℤ :=
  match menv with
  | some s => strToIntE s
  | none => yamlToInt fb

/-- One provider entry of the `data.providers` comprehension (config.py lines
140-144): `{**provider, "api_key": getenv(NAME_API_KEY, provider.get(...)),
"secret_key": ...}`.  The provider must be a dict with a string `name`. -/
def overrideProvider (envm : List (String × String)) : Yaml → Except PyError Yaml
  | Yaml.dict pes =>
      match getKey pes "name" with
      | some (Yaml.str n) => do
          let apiFb ← dGet (Yaml.dict pes) "api_key"
          let api := match lookupEnv envm (n.toUpper ++ "_API_KEY") with
            | some s => Yaml.str s
            | none => apiFb
          let secFb ← dGet (Yaml.dict pes) "secret_key"
          let sec := match lookupEnv envm (n.toUpper ++ "_SECRET_KEY") with
            | some s => Yaml.str s
            | none => secFb
          pure (Yaml.dict (setKey (setKey pes "api_key" api) "secret_key" sec))
      | some _ => Except.error (PyError.attributeError "object has no attribute upper")
      | none => Except.error (PyError.keyError "name")
  | _ => Except.error (PyError.typeError "string indices must be integers")

/-- The provider list comprehension. -/
def overrideProviders (envm : List (String × String)) :
    List Yaml → Except PyError (List Yaml)
  | [] => Except.ok []
  | p :: ps => do
      let p' ← overrideProvider envm p
      let ps' ← overrideProviders envm ps
      pure (p' :: ps')

/-- The `"app"` section of the override literal (config.py lines 134-137). -/
def buildAppOv (envm : List (String × String)) (cfg : List (String × Yaml)) :
    Except PyError Yaml := do
  let app := (getKey cfg "app").getD (Yaml.dict [])
  let nameFb ← dGet app "name"
  let nameV := match lookupEnv envm "APP_NAME" with
    | some s => Yaml.str s
    | none => nameFb
  let logFb ← dGet app "log_level"
  let logV := match lookupEnv envm "LOG_LEVEL" with
    | some s => Yaml.str s
    | none => logFb
  pure (Yaml.dict [("name", nameV), ("log_level", logV)])

/-- The `"data"` section of the override literal (config.py lines 138-150). -/
def buildDataOv (envm : List (String × String)) (cfg : List (String × Yaml)) :
    Except PyError Yaml := do
  let dat := (getKey cfg "data").getD (Yaml.dict [])
  let provsY ← dGetD dat "providers" (Yaml.list [])
  let provs ← match provsY with
    | Yaml.list ps => overrideProviders envm ps
    | _ => Except.error (PyError.typeError "object is not iterable")
  let cacheY ← dGetD dat "cache" (Yaml.dict [])
  let redisFb ← dGet cacheY "redis_url"
  let redisV := match lookupEnv envm "REDIS_URL" with
    | some s => Yaml.str s
    | none => redisFb
  pure (Yaml.dict [("providers", Yaml.list provs),
                   ("cache", Yaml.dict [("redis_url", redisV)])])

/-- The `"trading"` section of the override literal (config.py lines
151-159), containing the markets line and the four numeric conversions. -/
def buildTradingOv (envm : List (String × String)) (cfg : List (String × Yaml)) :
    Except PyError Yaml := do
  let trading := (getKey cfg "trading").getD (Yaml.dict [])
  let marketsFb ← dGetD trading "markets" (Yaml.list [])
  let markets := marketsValue (lookupEnv envm "MARKETS") marketsFb
  let mpsFb ← dGetD trading "max_position_size" (Yaml.num (1 / 10))
  let mps ← toFloatEnv (lookupEnv envm "MAX_POSITION_SIZE") mpsFb
  let riskY ← dGetD trading "risk" (Yaml.dict [])
  let mdFb ← dGetD riskY "max_drawdown" (Yaml.num (1 / 5))
  let md ← toFloatEnv (lookupEnv envm "MAX_DRAWDOWN") mdFb
  let vlFb ← dGetD riskY "var_limit" (Yaml.num (1 / 20))
  let vl ← toFloatEnv (lookupEnv envm "VAR_LIMIT") vlFb
  let latFb ← dGetD riskY "max_latency_ms" (Yaml.num 1000)
  let lat ← toIntEnv (lookupEnv envm "MAX_LATENCY_MS") latFb
  pure (Yaml.dict
    [("markets", Yaml.list (markets.map Yaml.str)),
     ("max_position_size", Yaml.num mps),
     ("risk", Yaml.dict
       [("max_drawdown", Yaml.num md),
        ("var_limit", Yaml.num vl),
        ("max_latency_ms", Yaml.num (lat : ℚ))])])

/-- The whole override literal (config.py lines 133-160).  `config` must be a
dict — the `.get` calls on anything else raise. -/
def buildEnvOverride (envm : List (String × String)) (config : Yaml) :
    Except PyError (List (String × Yaml)) :=
  match config with
  | Yaml.dict cfg => do
      let appOv ← buildAppOv envm cfg
      let dataOv ← buildDataOv envm cfg
      let tradOv ← buildTradingOv envm cfg
      pure [("app", appOv), ("data", dataOv), ("trading", tradOv)]
  | _ => Except.error (PyError.attributeError "object has no attribute get")

/-!
## Sub-resource loaders (config.py lines 98-114)

`load_strategy_configs` / `load_rules_configs` iterate the YAML files of a
directory and build one record per file, keyed by file stem.  The record
types `StrategyConfig` / `RiskPolicy` live in `core.types`, outside this
module; per the spec they are externally-owned schemas, so they are
modelled as records wrapping the mapping they were constructed from.
The loaders access `data["strategy"]` / `data["risk"]` directly: a missing
section is a bare `KeyError` whose message is only the quoted key.
-/

/-- Modelled from the spec: `core.types.StrategyConfig`, an externally
defined schema constructed from the `strategy` section's mapping. -/
structure StrategyRec where
  fields : List (String × Yaml)

/-- Modelled from the spec: `core.types.RiskPolicy`, an externally defined
schema constructed from the `risk` section's mapping. -/
structure RiskPolicyRec where
  fields : List (String × Yaml)

/-- `data[section]` on the loaded document: `KeyError` when the key is
missing, `TypeError` when the document is not a mapping at all; the `**`
unpacking then requires the section itself to be a mapping. -/
def extractSection (doc : Yaml) (section' : String) :
    Except PyError (List (String × Yaml)) :=
  match doc with
  | Yaml.dict es =>
      match getKey es section' with
      | some (Yaml.dict s) => Except.ok s
      | some _ => Except.error (PyError.typeError
          "argument after ** must be a mapping")
      | none => Except.error (PyError.keyError section')
  | _ => Except.error (PyError.typeError "indices must be integers")

/-- `load_strategy_configs` (lines 98-105): directory contents are the
`(stem, file-state)` pairs in glob order. -/
def load_strategy_configs : List (String × FileState) →
    Except PyError (List (String × StrategyRec))
  | [] => Except.ok []
  | (stem, fs) :: rest => do
      let doc ← load_yaml fs ("configs/strategies/" ++ stem ++ ".yaml")
      let s ← extractSection doc "strategy"
      let tail ← load_strategy_configs rest
      pure ((stem, StrategyRec.mk s) :: tail)

/-- `load_rules_configs` (lines 107-114). -/
def load_rules_configs : List (String × FileState) →
    Except PyError (List (String × RiskPolicyRec))
  | [] => Except.ok []
  | (stem, fs) :: rest => do
      let doc ← load_yaml fs ("configs/rules/" ++ stem ++ ".yaml")
      let s ← extractSection doc "risk"
      let tail ← load_rules_configs rest
      pure ((stem, RiskPolicyRec.mk s) :: tail)

/-!
## Schema validation (`Settings(**config)`, config.py lines 13-76)

The pydantic models with their field constraints.  pydantic aggregates all
field errors into one `ValidationError`; this model reports the first
violation instead — construction succeeds in exactly the same cases, which
is what the claims quantify over.  `extra = "forbid"` on `Settings` rejects
unrecognized top-level keys.  (String fields are modelled as accepting
strings only; pydantic v1's numeric-to-string coercions never apply on the
trees this pipeline builds.)
-/

/-- A validated `DataProviderConfig`. -/
structure ProviderV where
  name : String
  api_key : Option String
  secret_key : Option String
  endpoint : String
deriving DecidableEq

/-- A validated `Settings` aggregate. -/
structure SettingsV where
  app_name : String
  app_log_level : String
  data_providers : List ProviderV
  data_cache_redis_url : String
  trading_markets : List String
  trading_max_position_size : ℚ
  risk_max_drawdown : ℚ
  risk_var_limit : ℚ
  risk_max_latency_ms : Option ℤ
  strategies : List (String × StrategyRec)
  rules : List (String × RiskPolicyRec)

/-- The field names of the `Settings` model (config.py lines 62-71). -/
def allowedTopKeys : List String := ["app", "data", "trading", "strategies", "rules"]

/-- `AppConfig.validate_log_level` (lines 55-60). -/
def validLogLevels : List String := ["DEBUG", "INFO", "WARNING", "ERROR", "CRITICAL"]

/-- `DataProviderConfig.validate_provider_name` (lines 20-25). -/
def validProviders : List String := ["alpaca", "binance", "oanda", "polygon", "csv"]

/-- `TradingConfig.validate_markets` (lines 43-48). -/
def validMarkets : List String := ["stocks", "crypto", "forex", "commodities"]

/-- `Field(..., gt=0, le=1)` (lines 33, 34, 40). -/
def inUnitRange (q : ℚ) : Bool :=
  decide (0 < q) && decide (q ≤ 1)

/-- A required string field. -/
def fieldStr (es : List (String × Yaml)) (k : String) : Except PyError String :=
  match getKey es k with
  | some (Yaml.str s) => Except.ok s
  | some _ => Except.error (PyError.validationError (k ++ ": str type expected"))
  | none => Except.error (PyError.validationError (k ++ ": field required"))

/-- A string field with a default for the absent case (explicit `None` is
still rejected). -/
def fieldStrD (es : List (String × Yaml)) (k d : String) : Except PyError String :=
  match getKey es k with
  | some (Yaml.str s) => Except.ok s
  | some _ => Except.error (PyError.validationError (k ++ ": str type expected"))
  | none => Except.ok d

/-- A required numeric field. -/
def fieldNum (es : List (String × Yaml)) (k : String) : Except PyError ℚ :=
  match getKey es k with
  | some (Yaml.num q) => Except.ok q
  | some _ => Except.error (PyError.validationError (k ++ ": number expected"))
  | none => Except.error (PyError.validationError (k ++ ": field required"))

/-- A required numeric field constrained to `(0, 1]`. -/
def fieldFraction (es : List (String × Yaml)) (k : String) : Except PyError ℚ :=
  match fieldNum es k with
  | Except.error e => Except.error e
  | Except.ok q =>
      if inUnitRange q then Except.ok q
      else Except.error (PyError.validationError
        (k ++ ": ensure this value is in the interval (0, 1]"))

/-- An optional string field (`Optional[str] = None`). -/
def fieldOptStr (es : List (String × Yaml)) (k : String) :
    Except PyError (Option String) :=
  match getKey es k with
  | some (Yaml.str s) => Except.ok (some s)
  | some Yaml.null => Except.ok none
  | some _ => Except.error (PyError.validationError (k ++ ": str type expected"))
  | none => Except.ok none

/-- An optional integer field (`Optional[int] = None`); pydantic v1 coerces
floats with `int(v)`. -/
def fieldOptInt (es : List (String × Yaml)) (k : String) :
    Except PyError (Option ℤ) :=
  match getKey es k with
  | some (Yaml.num q) => Except.ok (some (truncInt q))
  | some Yaml.null => Except.ok none
  | some _ => Except.error (PyError.validationError (k ++ ": int type expected"))
  | none => Except.ok none

/-- A required field whose value must itself be a mapping (a nested model). -/
def fieldDict (es : List (String × Yaml)) (k : String) :
    Except PyError (List (String × Yaml)) :=
  match getKey es k with
  | some (Yaml.dict d) => Except.ok d
  | some _ => Except.error (PyError.validationError (k ++ ": value is not a valid dict"))
  | none => Except.error (PyError.validationError (k ++ ": field required"))

/-- `DataProviderConfig` validation (lines 13-25). -/
def validateProvider : Yaml → Except PyError ProviderV
  | Yaml.dict pes => do
      let n ← fieldStr pes "name"
      if validProviders.contains n then do
        let api ← fieldOptStr pes "api_key"
        let sec ← fieldOptStr pes "secret_key"
        let ep ← fieldStr pes "endpoint"
        pure (ProviderV.mk n api sec ep)
      else
        Except.error (PyError.validationError "Provider must be one of the valid providers")
  | _ => Except.error (PyError.validationError "provider: value is not a valid dict")

/-- Validates every provider entry. -/
def validateProviders : List Yaml → Except PyError (List ProviderV)
  | [] => Except.ok []
  | p :: ps => do
      let v ← validateProvider p
      let vs ← validateProviders ps
      pure (v :: vs)

/-- Every market must come from the fixed enumeration (lines 43-48). -/
def marketsOk (ms : List String) : Bool :=
  ms.all (fun m => validMarkets.contains m)

/-- Elements of a `List[str]` field must all be strings. -/
def yamlStrList : List Yaml → Except PyError (List String)
  | [] => Except.ok []
  | Yaml.str s :: rest => do
      let tail ← yamlStrList rest
      pure (s :: tail)
  | _ :: _ => Except.error (PyError.validationError "markets: str type expected")

/-- Markets must be a list of strings from the fixed enumeration. -/
def validateMarkets : Yaml → Except PyError (List String)
  | Yaml.list xs =>
      match yamlStrList xs with
      | Except.error e => Except.error e
      | Except.ok ms =>
          if marketsOk ms then Except.ok ms
          else Except.error (PyError.validationError "Markets must be subset of the valid markets")
  | _ => Except.error (PyError.validationError "markets: value is not a valid list")

/-- `Settings(**config)` with the `strategies` / `rules` entries already
assigned (config.py lines 163-164 then 168).  `entries` is the merged tree;
its `strategies` and `rules` keys are overwritten by the loaded mappings, so
the key set checked by `extra = "forbid"` is that of `entries` plus those
two names. -/
def settingsValidate (entries : List (String × Yaml))
    (strategies : List (String × StrategyRec))
    (rules : List (String × RiskPolicyRec)) : Except PyError SettingsV :=
  let finalE := setKey (setKey entries "strategies" Yaml.null) "rules" Yaml.null
  if (finalE.map Prod.fst).all (fun k => decide (k ∈ allowedTopKeys)) then do
    let appEs ← fieldDict entries "app"
    let name ← fieldStrD appEs "name" "traderai"
    let log ← fieldStrD appEs "log_level" "INFO"
    if validLogLevels.contains log then do
      let dataEs ← fieldDict entries "data"
      let provsY ←
        match getKey dataEs "providers" with
        | some (Yaml.list ps) => Except.ok ps
        | some _ => Except.error (PyError.validationError "providers: value is not a valid list")
        | none => Except.error (PyError.validationError "providers: field required")
      let provs ← validateProviders provsY
      let cacheEs ← fieldDict dataEs "cache"
      let redis ← fieldStrD cacheEs "redis_url" "redis://localhost:6379/0"
      let tradEs ← fieldDict entries "trading"
      let marketsY ←
        match getKey tradEs "markets" with
        | some v => Except.ok v
        | none => Except.error (PyError.validationError "markets: field required")
      let markets ← validateMarkets marketsY
      let mps ← fieldFraction tradEs "max_position_size"
      let riskEs ← fieldDict tradEs "risk"
      let md ← fieldFraction riskEs "max_drawdown"
      let vl ← fieldFraction riskEs "var_limit"
      let lat ← fieldOptInt riskEs "max_latency_ms"
      pure (SettingsV.mk name log provs redis markets mps md vl lat strategies rules)
    else
      Except.error (PyError.validationError "Log level must be one of the valid levels")
  else
    Except.error (PyError.validationError "extra fields not permitted")

/-!
## The pipeline (`get_settings`, config.py lines 116-170) and the accessor
(`init_settings`, lines 172-180)
-/

/-- Modelled from the spec: `core.constants.Environment`, the fixed set of
deployment environments selecting the per-environment YAML file. -/
inductive Environment where
  | dev
  | staging
  | prod
deriving DecidableEq

/-- `env.value`, the file-name fragment of an environment. -/
def envValue : Environment → String
  | Environment.dev => "dev"
  | Environment.staging => "staging"
  | Environment.prod => "prod"

/-- The parts of the process state `get_settings` reads: the two config
files, the strategy and rules directories (stem and file state, in glob
order) and the process environment. -/
structure World where
  defaultFile : FileState
  envFile : Environment → FileState
  strategyFiles : List (String × FileState)
  rulesFiles : List (String × FileState)
  envVars : List (String × String)

/-- `merge_configs(b, ov)` as called on two loaded documents: the override
must be a dict (`.items()`), and a crash inside the merge propagates. -/
def pyMerge (b ov : Yaml) : Except PyError Yaml :=
  match ov with
  | Yaml.dict o =>
      match mergeVal b o with
      | some r => Except.ok r
      | none => Except.error (PyError.attributeError "object has no attribute copy")
  | _ => Except.error (PyError.attributeError "object has no attribute items")

/-- The `try ... except ValueError` wrapper around `Settings(**config)`
(config.py lines 167-170). -/
def wrapValidation (e : PyError) : PyError :=
  PyError.valueError ("Configuration validation error: " ++ pyErrMsg e)

/-- `get_settings` (config.py lines 116-170): load `default.yaml` and the
environment file, merge, merge the environment override literal on top,
load strategies and rules, then validate. -/
def get_settings (w : World) (env : Environment) : Except PyError SettingsV := do
  let dc ← load_yaml w.defaultFile "configs/default.yaml"
  let ec ← load_yaml (w.envFile env) ("configs/" ++ envValue env ++ ".yaml")
  let config ← pyMerge dc ec
  let ov ← buildEnvOverride w.envVars config
  let config2 ← pyMerge config (Yaml.dict ov)
  let strategies ← load_strategy_configs w.strategyFiles
  let rules ← load_rules_configs w.rulesFiles
  match config2 with
  | Yaml.dict entries =>
      (settingsValidate entries strategies rules).mapError wrapValidation
  | _ => Except.error (PyError.typeError "object does not support item assignment")

/-- `init_settings` (config.py lines 172-180): the module-global cache is
threaded explicitly.  Returns the settings handed to the caller together
with the cache cell after the call; on a pipeline failure the exception
propagates and the cell stays empty. -/
def init_settings (cache : Option SettingsV) (w : World) (env : Environment) :
    Except PyError (SettingsV × Option SettingsV) :=
  match cache with
  | some s => Except.ok (s, some s)
  | none =>
      match get_settings w env with
      | Except.ok s => Except.ok (s, some s)
      | Except.error e => Except.error e

/-- Whether a pipeline step succeeded (no exception raised). -/
def isOkE {α : Type} : Except PyError α → Bool
  | Except.ok _ => true
  | Except.error _ => false

/-!
## Concrete fixtures used by witnesses
-/

/-- A complete, valid merged configuration tree (also the override literal
the builder produces on `w0` below). -/
def defaultTree : List (String × Yaml) :=
  [ ("app", Yaml.dict [("name", Yaml.str "traderai"), ("log_level", Yaml.str "INFO")]),
    ("data", Yaml.dict
      [("providers", Yaml.list []),
       ("cache", Yaml.dict [("redis_url", Yaml.str "redis://localhost:6379/0")])]),
    ("trading", Yaml.dict
      [("markets", Yaml.list [Yaml.str "stocks"]),
       ("max_position_size", Yaml.num 1),
       ("risk", Yaml.dict
         [("max_drawdown", Yaml.num 1),
          ("var_limit", Yaml.num 1),
          ("max_latency_ms", Yaml.num 1000)])]) ]

/-- A process state on which the whole pipeline succeeds: no config files,
every recognized variable set in the environment (`MARKETS` must be set:
with it unset the stringified markets fallback never validates). -/
def w0 : World :=
  { defaultFile := FileState.missing
    envFile := fun _ => FileState.missing
    strategyFiles := []
    rulesFiles := []
    envVars := [("APP_NAME", "traderai"), ("LOG_LEVEL", "INFO"),
                ("REDIS_URL", "redis://localhost:6379/0"), ("MARKETS", "stocks"),
                ("MAX_POSITION_SIZE", "1"), ("MAX_DRAWDOWN", "1"),
                ("VAR_LIMIT", "1"), ("MAX_LATENCY_MS", "1000")] }

/-- A later process state in which every file is malformed and the
environment is gone: a fresh pipeline run on it would fail. -/
def wChanged : World :=
  { defaultFile := FileState.malformed "mapping values are not allowed here"
    envFile := fun _ => FileState.malformed "mapping values are not allowed here"
    strategyFiles := [("momentum", FileState.malformed "bad")]
    rulesFiles := []
    envVars := [] }

/-- The settings value the pipeline produces on `w0`. -/
def s0 : SettingsV :=
  { app_name := "traderai"
    app_log_level := "INFO"
    data_providers := []
    data_cache_redis_url := "redis://localhost:6379/0"
    trading_markets := ["stocks"]
    trading_max_position_size := 1
    risk_max_drawdown := 1
    risk_var_limit := 1
    risk_max_latency_ms := some 1000
    strategies := []
    rules := [] }

/-- A process state with an unparseable numeric environment variable. -/
def wBad : World :=
  { defaultFile := FileState.missing
    envFile := fun _ => FileState.missing
    strategyFiles := []
    rulesFiles := []
    envVars := [("MAX_POSITION_SIZE", "abc")] }

/-- A merged tree that is valid except that the three risk fractions are
left as parameters: the skeleton for the range-constraint claim. -/
def riskSkeleton (md vl mps : ℚ) : List (String × Yaml) :=
  [ ("app", Yaml.dict [("name", Yaml.str "traderai"), ("log_level", Yaml.str "INFO")]),
    ("data", Yaml.dict
      [("providers", Yaml.list []),
       ("cache", Yaml.dict [("redis_url", Yaml.str "redis://localhost:6379/0")])]),
    ("trading", Yaml.dict
      [("markets", Yaml.list [Yaml.str "stocks"]),
       ("max_position_size", Yaml.num mps),
       ("risk", Yaml.dict
         [("max_drawdown", Yaml.num md),
          ("var_limit", Yaml.num vl),
          ("max_latency_ms", Yaml.num 1000)])]) ]

/-!
# Theorems

First general lemmas about dict operations, substrings and the merger;
then one theorem (plus witness / counterexample) per specification claim.
-/

theorem getKey_setKey_same (d : List (String × Yaml)) (k : String) (v : Yaml) :
    getKey (setKey d k v) k = some v := by
  induction d with
  | nil => simp [setKey, getKey]
  | cons hd tl ih =>
      obtain ⟨k1, v1⟩ := hd
      by_cases h : k1 = k <;> simp [setKey, getKey, h, ih]

theorem getKey_setKey_ne (d : List (String × Yaml)) (k k' : String) (v : Yaml)
    (h : k' ≠ k) : getKey (setKey d k v) k' = getKey d k' := by
  have hk : ¬(k = k') := fun hh => h hh.symm
  induction d with
  | nil => simp [setKey, getKey, hk]
  | cons hd tl ih =>
      obtain ⟨k1, v1⟩ := hd
      by_cases h1 : k1 = k
      · subst h1
        simp [setKey, getKey, hk]
      · by_cases h2 : k1 = k' <;> simp [setKey, getKey, h1, h2, h, ih]

theorem mem_keys_setKey (d : List (String × Yaml)) (k k' : String) (v : Yaml)
    (h : k ∈ d.map Prod.fst) : k ∈ (setKey d k' v).map Prod.fst := by
  induction d with
  | nil => simp at h
  | cons hd tl ih =>
      obtain ⟨k1, v1⟩ := hd
      by_cases h1 : k1 = k'
      · simp [setKey, h1] at h ⊢
        exact h
      · simp [setKey, h1] at h ⊢
        rcases h with h | h
        · exact Or.inl h
        · exact Or.inr (by simpa using ih (by simpa using h))

theorem subAt_append_self (n zs : List Char) : subAt n (n ++ zs) = true := by
  induction n with
  | nil => simp [subAt]
  | cons c cs ih => simp [subAt, ih]

theorem subAny_append_self (xs n ys : List Char) :
    subAny n (xs ++ (n ++ ys)) = true := by
  induction xs with
  | nil =>
      cases n with
      | nil => cases ys <;> simp [subAny, subAt, List.isEmpty]
      | cons c cs =>
          have := subAt_append_self (c :: cs) ys
          simp [subAt] at this
          simp [subAny, subAt, this]
  | cons x xs ih => simp [subAny, ih]

theorem strHasSub_middle (a b c : String) : strHasSub (a ++ b ++ c) b = true := by
  have h : (a ++ b ++ c).toList = a.toList ++ (b.toList ++ c.toList) := by
    show (a.toList ++ b.toList ++ c.toList) = _
    simp
  rw [strHasSub, h]
  exact subAny_append_self a.toList b.toList c.toList

/-- Keys not mentioned by the override keep their binding through the merge
loop. -/
theorem mergeLoop_frame (ov : List (String × Yaml)) :
    ∀ result res k, mergeLoop result ov = some res → k ∉ ov.map Prod.fst →
      getKey res k = getKey result k := by
  induction ov with
  | nil =>
      intro result res k h _
      simp [mergeLoop] at h
      subst h
      rfl
  | cons hd tl ih =>
      obtain ⟨k1, v1⟩ := hd
      intro result res k h hmem
      rw [List.map_cons, List.mem_cons] at hmem
      push_neg at hmem
      obtain ⟨hk, htl⟩ := hmem
      cases v1 with
      | dict d =>
          simp only [mergeLoop] at h
          cases hg : getKey result k1 with
          | some bv =>
              simp only [hg] at h
              cases hm : mergeVal bv d with
              | some m =>
                  simp only [hm] at h
                  rw [ih _ _ _ h htl]
                  exact getKey_setKey_ne _ _ _ _ hk
              | none =>
                  simp only [hm] at h
                  exact absurd h (by simp)
          | none =>
              simp only [hg] at h
              rw [ih _ _ _ h htl]
              exact getKey_setKey_ne _ _ _ _ hk
      | str s =>
          simp only [mergeLoop] at h
          rw [ih _ _ _ h htl]
          exact getKey_setKey_ne _ _ _ _ hk
      | num q =>
          simp only [mergeLoop] at h
          rw [ih _ _ _ h htl]
          exact getKey_setKey_ne _ _ _ _ hk
      | bool b =>
          simp only [mergeLoop] at h
          rw [ih _ _ _ h htl]
          exact getKey_setKey_ne _ _ _ _ hk
      | null =>
          simp only [mergeLoop] at h
          rw [ih _ _ _ h htl]
          exact getKey_setKey_ne _ _ _ _ hk
      | list l =>
          simp only [mergeLoop] at h
          rw [ih _ _ _ h htl]
          exact getKey_setKey_ne _ _ _ _ hk

/-- Merging a mapping onto a scalar crashes (`.copy()` on a value without
that method). -/
theorem mergeVal_scalar (bv : Yaml) (d : List (String × Yaml))
    (h : yamlIsScalar bv = true) : mergeVal bv d = none := by
  cases bv <;> simp [yamlIsScalar] at h <;> simp [mergeVal]

/-- A key only the override mentions ends up bound to the override's value
(the `else` branch of the loop fires, whatever the value's type). -/
theorem mergeLoop_absent (ov : List (String × Yaml)) :
    ∀ result res k v, mergeLoop result ov = some res →
      (ov.map Prod.fst).Nodup → (k, v) ∈ ov → getKey result k = none →
      getKey res k = some v := by
  induction ov with
  | nil =>
      intro result res k v _ _ hmem _
      simp at hmem
  | cons hd tl ih =>
      obtain ⟨k1, v1⟩ := hd
      intro result res k v h hnd hmem hget
      simp only [List.map_cons, List.nodup_cons] at hnd
      obtain ⟨hk1, hndtl⟩ := hnd
      rcases List.mem_cons.mp hmem with heq | htl
      · injection heq with hk hv
        subst hk
        subst hv
        cases v
        case dict d =>
          simp only [mergeLoop, hget] at h
          rw [mergeLoop_frame tl _ _ _ h hk1]
          exact getKey_setKey_same _ _ _
        all_goals
          (simp only [mergeLoop] at h;
           rw [mergeLoop_frame tl _ _ _ h hk1];
           exact getKey_setKey_same _ _ _)
      · have hkne : k ≠ k1 := by
          intro hh
          subst hh
          exact hk1 (List.mem_map_of_mem Prod.fst htl)
        cases v1
        case dict d =>
          simp only [mergeLoop] at h
          cases hg : getKey result k1 with
          | some bv =>
              simp only [hg] at h
              cases hm : mergeVal bv d with
              | some m =>
                  simp only [hm] at h
                  refine ih _ _ _ _ h hndtl htl ?_
                  rw [getKey_setKey_ne _ _ _ _ hkne]
                  exact hget
              | none =>
                  simp only [hm] at h
                  exact absurd h (by simp)
          | none =>
              simp only [hg] at h
              refine ih _ _ _ _ h hndtl htl ?_
              rw [getKey_setKey_ne _ _ _ _ hkne]
              exact hget
        all_goals
          (simp only [mergeLoop] at h;
           refine ih _ _ _ _ h hndtl htl ?_;
           rw [getKey_setKey_ne _ _ _ _ hkne];
           exact hget)

/-- A key the override binds to a non-mapping value is replaced outright. -/
theorem mergeLoop_nondict (ov : List (String × Yaml)) :
    ∀ result res k v, mergeLoop result ov = some res →
      (ov.map Prod.fst).Nodup → (k, v) ∈ ov → (∀ d, v ≠ Yaml.dict d) →
      getKey res k = some v := by
  induction ov with
  | nil =>
      intro result res k v _ _ hmem _
      simp at hmem
  | cons hd tl ih =>
      obtain ⟨k1, v1⟩ := hd
      intro result res k v h hnd hmem hv
      simp only [List.map_cons, List.nodup_cons] at hnd
      obtain ⟨hk1, hndtl⟩ := hnd
      rcases List.mem_cons.mp hmem with heq | htl
      · injection heq with hk hveq
        subst hk
        subst hveq
        cases v
        case dict d => exact absurd rfl (hv d)
        all_goals
          (simp only [mergeLoop] at h;
           rw [mergeLoop_frame tl _ _ _ h hk1];
           exact getKey_setKey_same _ _ _)
      · have hkne : k ≠ k1 := by
          intro hh
          subst hh
          exact hk1 (List.mem_map_of_mem Prod.fst htl)
        cases v1
        case dict d =>
          simp only [mergeLoop] at h
          cases hg : getKey result k1 with
          | some bv =>
              simp only [hg] at h
              cases hm : mergeVal bv d with
              | some m =>
                  simp only [hm] at h
                  exact ih _ _ _ _ h hndtl htl hv
              | none =>
                  simp only [hm] at h
                  exact absurd h (by simp)
          | none =>
              simp only [hg] at h
              exact ih _ _ _ _ h hndtl htl hv
        all_goals
          (simp only [mergeLoop] at h;
           exact ih _ _ _ _ h hndtl htl hv)

/-- A key both trees bind to mappings is merged recursively. -/
theorem mergeLoop_bothDicts (ov : List (String × Yaml)) :
    ∀ result res k d b, mergeLoop result ov = some res →
      (ov.map Prod.fst).Nodup → (k, Yaml.dict d) ∈ ov →
      getKey result k = some (Yaml.dict b) →
      ∃ m, mergeLoop b d = some m ∧ getKey res k = some (Yaml.dict m) := by
  induction ov with
  | nil =>
      intro result res k d b _ _ hmem _
      simp at hmem
  | cons hd tl ih =>
      obtain ⟨k1, v1⟩ := hd
      intro result res k d b h hnd hmem hget
      simp only [List.map_cons, List.nodup_cons] at hnd
      obtain ⟨hk1, hndtl⟩ := hnd
      rcases List.mem_cons.mp hmem with heq | htl
      · injection heq with hk hv
        subst hk
        subst hv
        simp only [mergeLoop, hget] at h
        cases hm : mergeLoop b d with
        | some m =>
            rw [show mergeVal (Yaml.dict b) d = some (Yaml.dict m) by
                  simp [mergeVal, hm]] at h
            refine ⟨m, rfl, ?_⟩
            rw [mergeLoop_frame tl _ _ _ h hk1]
            exact getKey_setKey_same _ _ _
        | none =>
            rw [show mergeVal (Yaml.dict b) d = none by simp [mergeVal, hm]] at h
            exact absurd h (by simp)
      · have hkne : k ≠ k1 := by
          intro hh
          subst hh
          exact hk1 (List.mem_map_of_mem Prod.fst htl)
        cases v1
        case dict d1 =>
          simp only [mergeLoop] at h
          cases hg : getKey result k1 with
          | some bv =>
              simp only [hg] at h
              cases hm : mergeVal bv d1 with
              | some m =>
                  simp only [hm] at h
                  refine ih _ _ _ _ _ h hndtl htl ?_
                  rw [getKey_setKey_ne _ _ _ _ hkne]
                  exact hget
              | none =>
                  simp only [hm] at h
                  exact absurd h (by simp)
          | none =>
              simp only [hg] at h
              refine ih _ _ _ _ _ h hndtl htl ?_
              rw [getKey_setKey_ne _ _ _ _ hkne]
              exact hget
        all_goals
          (simp only [mergeLoop] at h;
           refine ih _ _ _ _ _ h hndtl htl ?_;
           rw [getKey_setKey_ne _ _ _ _ hkne];
           exact hget)

/-- A key the override binds to a mapping while the base binds it to a
scalar makes the whole merge crash. -/
theorem mergeLoop_scalarCrash (ov : List (String × Yaml)) :
    ∀ result k d bv, (ov.map Prod.fst).Nodup → (k, Yaml.dict d) ∈ ov →
      getKey result k = some bv → yamlIsScalar bv = true →
      mergeLoop result ov = none := by
  induction ov with
  | nil =>
      intro result k d bv _ hmem _ _
      simp at hmem
  | cons hd tl ih =>
      obtain ⟨k1, v1⟩ := hd
      intro result k d bv hnd hmem hget hscal
      simp only [List.map_cons, List.nodup_cons] at hnd
      obtain ⟨hk1, hndtl⟩ := hnd
      rcases List.mem_cons.mp hmem with heq | htl
      · injection heq with hk hv
        subst hk
        subst hv
        simp only [mergeLoop, hget, mergeVal_scalar bv d hscal]
      · have hkne : k ≠ k1 := by
          intro hh
          subst hh
          exact hk1 (List.mem_map_of_mem Prod.fst htl)
        cases v1
        case dict d1 =>
          simp only [mergeLoop]
          cases hg : getKey result k1 with
          | some bv1 =>
              simp only [hg]
              cases hm : mergeVal bv1 d1 with
              | some m =>
                  simp only [hm]
                  refine ih _ _ _ _ hndtl htl ?_ hscal
                  rw [getKey_setKey_ne _ _ _ _ hkne]
                  exact hget
              | none => simp only [hm]
          | none =>
              simp only [hg]
              refine ih _ _ _ _ hndtl htl ?_ hscal
              rw [getKey_setKey_ne _ _ _ _ hkne]
              exact hget
        all_goals
          (simp only [mergeLoop];
           refine ih _ _ _ _ hndtl htl ?_ hscal;
           rw [getKey_setKey_ne _ _ _ _ hkne];
           exact hget)

/-- **C10.**  The `Settings` class body (config.py lines 62-71) annotates its
`data` field with `DataConfig`, which is only defined at lines 73-76: running
the module's class statements in source order hits an unresolved name at
`Settings`, so importing the module — and with it every call to
`get_settings` or `init_settings` — fails with a name-resolution error and
the pipeline can never return a `Settings` value as written. -/
theorem settings_forward_reference :
    firstUnresolved moduleClassDefs importedTypeNames
      = some ("Settings", "DataConfig") := by
  rfl

/-- **C4.**  `load_yaml`: a missing file and an empty document both yield the
empty tree, and a malformed file raises the parse error whose message names
the file and wraps the parser diagnostic. -/
theorem load_yaml_contract :
    (∀ p, load_yaml FileState.missing p = Except.ok (Yaml.dict [])) ∧
    (∀ p, load_yaml (FileState.doc Yaml.null) p = Except.ok (Yaml.dict [])) ∧
    (∀ p d, load_yaml (FileState.malformed d) p =
        Except.error (PyError.valueError
          ("Error parsing YAML file " ++ p ++ ": " ++ d)) ∧
      strHasSub ("Error parsing YAML file " ++ p ++ ": " ++ d) p = true ∧
      strHasSub ("Error parsing YAML file " ++ p ++ ": " ++ d) d = true) := by
  refine ⟨fun p => rfl, fun p => rfl, fun p d => ⟨rfl, ?_, ?_⟩⟩
  · rw [String.append_assoc]
    exact strHasSub_middle _ _ _
  · have h := strHasSub_middle ("Error parsing YAML file " ++ p ++ ": ") d ""
    simpa using h

/-- **C1 counterexample.**  The claim says that when the override's value at
a key is a nested mapping but the base's value there is a scalar, the
override value replaces the base value and the merge returns normally.  The
code instead recurses (the guard only tests `key in result`, not the type of
`result[key]`) and the recursive call crashes on `"x".copy()`. -/
theorem merge_dict_over_scalar_cex :
    merge_configs [("a", Yaml.str "x")] [("a", Yaml.dict [])] = none ∧
    merge_configs [("a", Yaml.str "x")] [("a", Yaml.dict [])] ≠
      some [("a", Yaml.dict [])] := by
  constructor
  · simp [merge_configs, mergeLoop, mergeVal, getKey]
  · simp [merge_configs, mergeLoop, mergeVal, getKey]

/-- **C1 (amended).**  For every key the override mentions (override trees
are genuine Python dicts, hence key-distinct): a non-mapping override value,
or a key absent from the base, replaces/adds outright and the merge returns
normally; a mapping override value with a mapping base value is merged
recursively; but a mapping override value whose base value is a *scalar*
makes the merge raise (the code recurses whenever the key is present,
without checking that the base value is a mapping) instead of replacing. -/
theorem merge_override_per_key (base ov : List (String × Yaml)) (k : String)
    (hnd : (ov.map Prod.fst).Nodup) :
    (∀ v, (k, v) ∈ ov → (∀ d, v ≠ Yaml.dict d) →
      ∀ res, merge_configs base ov = some res → getKey res k = some v) ∧
    (∀ v, (k, v) ∈ ov → getKey base k = none →
      ∀ res, merge_configs base ov = some res → getKey res k = some v) ∧
    (∀ d b, (k, Yaml.dict d) ∈ ov → getKey base k = some (Yaml.dict b) →
      ∀ res, merge_configs base ov = some res →
        ∃ m, mergeLoop b d = some m ∧ getKey res k = some (Yaml.dict m)) ∧
    (∀ d bv, (k, Yaml.dict d) ∈ ov → getKey base k = some bv →
      yamlIsScalar bv = true → merge_configs base ov = none) := by
  refine ⟨?_, ?_, ?_, ?_⟩
  · intro v hm hv res h
    exact mergeLoop_nondict ov base res k v h hnd hm hv
  · intro v hm hg res h
    exact mergeLoop_absent ov base res k v h hnd hm hg
  · intro d b hm hg res h
    exact mergeLoop_bothDicts ov base res k d b h hnd hm hg
  · intro d bv hm hg hs
    exact mergeLoop_scalarCrash ov base k d bv hnd hm hg hs

/-- Witness for `merge_override_per_key`: each of the four cases exercised
at a concrete input. -/
theorem merge_override_per_key_w :
    (getKey [("a", Yaml.str "y")] "a" = some (Yaml.str "y")) ∧
    (getKey [("b", Yaml.str "n")] "b" = some (Yaml.str "n")) ∧
    (∃ m, mergeLoop [("x", Yaml.str "1"), ("z", Yaml.str "0")]
        [("x", Yaml.str "2"), ("y", Yaml.str "3")] = some m ∧
      getKey [("a", Yaml.dict [("x", Yaml.str "2"), ("z", Yaml.str "0"),
                               ("y", Yaml.str "3")])] "a"
        = some (Yaml.dict m)) ∧
    merge_configs [("s", Yaml.num 5)] [("s", Yaml.dict [("q", Yaml.null)])] = none := by
  have h1 : merge_configs [("a", Yaml.str "x")] [("a", Yaml.str "y")]
      = some [("a", Yaml.str "y")] := by
    simp [merge_configs, mergeLoop, setKey, getKey]
  have h2 : merge_configs [] [("b", Yaml.str "n")] = some [("b", Yaml.str "n")] := by
    simp [merge_configs, mergeLoop, setKey]
  have h3 : merge_configs [("a", Yaml.dict [("x", Yaml.str "1"), ("z", Yaml.str "0")])]
      [("a", Yaml.dict [("x", Yaml.str "2"), ("y", Yaml.str "3")])]
      = some [("a", Yaml.dict [("x", Yaml.str "2"), ("z", Yaml.str "0"),
                               ("y", Yaml.str "3")])] := by
    simp [merge_configs, mergeLoop, mergeVal, setKey, getKey]
  refine ⟨?_, ?_, ?_, ?_⟩
  · exact (merge_override_per_key [("a", Yaml.str "x")] [("a", Yaml.str "y")] "a"
      (by simp)).1 _ (by simp) (by intro d; simp) _ h1
  · exact (merge_override_per_key [] [("b", Yaml.str "n")] "b"
      (by simp)).2.1 _ (by simp) (by simp [getKey]) _ h2
  · exact (merge_override_per_key
      [("a", Yaml.dict [("x", Yaml.str "1"), ("z", Yaml.str "0")])]
      [("a", Yaml.dict [("x", Yaml.str "2"), ("y", Yaml.str "3")])] "a"
      (by simp)).2.2.1 _ _ (by simp) (by simp [getKey]) _ h3
  · exact (merge_override_per_key [("s", Yaml.num 5)]
      [("s", Yaml.dict [("q", Yaml.null)])] "s"
      (by simp)).2.2.2 [("q", Yaml.null)] (Yaml.num 5) (by simp)
      (by simp [getKey]) (by simp [yamlIsScalar])

/-- **C9.**  On a merge that returns, keys only the base mentions keep their
base binding, and keys only the override mentions are added with the
override's value.  (The base tree itself is never mutated: the code copies
it before writing, and this embedding is pure.) -/
theorem merge_preserves_and_adds (base ov : List (String × Yaml)) (k : String)
    (res : List (String × Yaml)) (h : merge_configs base ov = some res) :
    (k ∉ ov.map Prod.fst → getKey res k = getKey base k) ∧
    ((ov.map Prod.fst).Nodup → getKey base k = none →
      ∀ v, (k, v) ∈ ov → getKey res k = some v) := by
  constructor
  · intro hk
    exact mergeLoop_frame ov base res k h hk
  · intro hnd hg v hm
    exact mergeLoop_absent ov base res k v h hnd hm hg

/-- Witness for `merge_preserves_and_adds` at a concrete base/override. -/
theorem merge_preserves_and_adds_w :
    getKey [("keep", Yaml.str "b"), ("new", Yaml.str "o")] "keep"
      = some (Yaml.str "b") ∧
    getKey [("keep", Yaml.str "b"), ("new", Yaml.str "o")] "new"
      = some (Yaml.str "o") := by
  have h : merge_configs [("keep", Yaml.str "b")] [("new", Yaml.str "o")] =
      some [("keep", Yaml.str "b"), ("new", Yaml.str "o")] := by
    simp [merge_configs, mergeLoop, setKey, getKey]
  constructor
  · have h1 := (merge_preserves_and_adds _ _ "keep" _ h).1 (by simp)
    rw [h1]
    simp [getKey]
  · exact (merge_preserves_and_adds _ _ "new" _ h).2 (by simp) (by simp [getKey])
      _ (by simp)

/-- **C2.**  The markets override (config.py line 152): with
`MARKETS=stocks,crypto` set the variable splits into `["stocks","crypto"]`
as claimed, but with `MARKETS` unset the code stringifies the fallback list
and splits the *repr* on commas — the base markets value does not survive
unchanged, it becomes `["['stocks'", " 'crypto']"]`. -/
theorem markets_fallback_stringified :
    marketsValue (some "stocks,crypto")
        (Yaml.list [Yaml.str "stocks", Yaml.str "crypto"])
      = ["stocks", "crypto"] ∧
    marketsValue none (Yaml.list [Yaml.str "stocks", Yaml.str "crypto"])
      = ["['stocks'", " 'crypto']"] ∧
    marketsValue none (Yaml.list [Yaml.str "stocks", Yaml.str "crypto"])
      ≠ ["stocks", "crypto"] := by
  refine ⟨?_, ?_, ?_⟩
  · rfl
  · simp only [marketsValue, pyStrY, pyReprY, reprList, numRepr]
    rfl
  · simp only [marketsValue, pyStrY, pyReprY, reprList, numRepr]
    decide

/-- **C7 counterexample.**  A strategy file whose document lacks the
`strategy` section makes the loader raise a bare `KeyError('strategy')`:
its message is `'strategy'`, which does not name the offending file (here
`momentum`), contradicting the claimed `ConfigValidationError` naming the
file. -/
theorem strategy_missing_section_cex :
    load_strategy_configs
        [("momentum", FileState.doc (Yaml.dict [("name", Yaml.str "momentum")]))]
      = Except.error (PyError.keyError "strategy") ∧
    strHasSub (pyErrMsg (PyError.keyError "strategy")) "momentum" = false := by
  exact ⟨rfl, by decide⟩

/-- **C7 (amended).**  A strategy file whose loaded document lacks the
`strategy` section (and likewise a rules file lacking `risk`) makes the
sub-resource loader fail — but with a bare `KeyError` carrying only the
missing section name, not an error naming the offending file. -/
theorem subresource_missing_section :
    (∀ stem es rest, getKey es "strategy" = none →
      load_strategy_configs ((stem, FileState.doc (Yaml.dict es)) :: rest)
        = Except.error (PyError.keyError "strategy")) ∧
    (∀ stem es rest, getKey es "risk" = none →
      load_rules_configs ((stem, FileState.doc (Yaml.dict es)) :: rest)
        = Except.error (PyError.keyError "risk")) := by
  constructor
  · intro stem es rest hget
    cases es with
    | nil => rfl
    | cons e es' =>
        simp [load_strategy_configs, load_yaml, pyTruthy, extractSection, hget,
          bind, Except.bind]
  · intro stem es rest hget
    cases es with
    | nil => rfl
    | cons e es' =>
        simp [load_rules_configs, load_yaml, pyTruthy, extractSection, hget,
          bind, Except.bind]

/-- Witness for `subresource_missing_section` at concrete directories. -/
theorem subresource_missing_section_w :
    load_strategy_configs
        [("alpha", FileState.doc (Yaml.dict [("enabled", Yaml.bool true)]))]
      = Except.error (PyError.keyError "strategy") ∧
    load_rules_configs
        [("base", FileState.doc (Yaml.dict [("limits", Yaml.null)]))]
      = Except.error (PyError.keyError "risk") :=
  ⟨subresource_missing_section.1 "alpha" [("enabled", Yaml.bool true)] []
      (by simp [getKey]),
   subresource_missing_section.2 "base" [("limits", Yaml.null)] []
      (by simp [getKey])⟩

/-- **C5.**  Any top-level key of the merged tree outside
`{app, data, trading, strategies, rules}` makes `Settings` construction
fail (`extra = "forbid"`) rather than silently dropping the key. -/
theorem settings_extra_key_rejected (entries : List (String × Yaml))
    (strategies : List (String × StrategyRec)) (rules : List (String × RiskPolicyRec))
    (k : String) (hmem : k ∈ entries.map Prod.fst) (hnot : k ∉ allowedTopKeys) :
    isOkE (settingsValidate entries strategies rules) = false := by
  unfold settingsValidate
  have hk : k ∈ (setKey (setKey entries "strategies" Yaml.null) "rules"
      Yaml.null).map Prod.fst :=
    mem_keys_setKey _ _ _ _ (mem_keys_setKey _ _ _ _ hmem)
  have hall : ¬ (((setKey (setKey entries "strategies" Yaml.null) "rules"
      Yaml.null).map Prod.fst).all (fun k => decide (k ∈ allowedTopKeys)) = true) := by
    intro hall
    rw [List.all_eq_true] at hall
    exact hnot (of_decide_eq_true (hall _ hk))
  rw [if_neg hall]
  rfl

/-- Witness for `settings_extra_key_rejected`: the tree `{foo: bar}`. -/
theorem settings_extra_key_rejected_w :
    isOkE (settingsValidate [("foo", Yaml.str "bar")] [] []) = false :=
  settings_extra_key_rejected [("foo", Yaml.str "bar")] [] [] "foo"
    (by simp) (by decide)

theorem isOkE_false_iff {α : Type} (x : Except PyError α) :
    isOkE x = false ↔ ∃ e, x = Except.error e := by
  cases x <;> simp [isOkE]

/-- If `MAX_POSITION_SIZE` is set to an unparseable string, the trading
section of the override literal raises. -/
theorem buildTradingOv_mps_fail (envm : List (String × String))
    (cfg : List (String × Yaml)) (s : String)
    (he : lookupEnv envm "MAX_POSITION_SIZE" = some s) (hp : pyFloat s = none) :
    isOkE (buildTradingOv envm cfg) = false := by
  unfold buildTradingOv
  cases h1 : dGetD ((getKey cfg "trading").getD (Yaml.dict [])) "markets" (Yaml.list []) with
  | error e => simp only [bind, Except.bind, h1, isOkE]
  | ok mfb =>
      cases h2 : dGetD ((getKey cfg "trading").getD (Yaml.dict []))
          "max_position_size" (Yaml.num (1/10)) with
      | error e => simp only [bind, Except.bind, h1, h2, isOkE]
      | ok mpsFb =>
          simp only [bind, Except.bind, h1, h2, he, toFloatEnv, strToFloatE, hp, isOkE]

/-- Likewise for `MAX_DRAWDOWN`. -/
theorem buildTradingOv_md_fail (envm : List (String × String))
    (cfg : List (String × Yaml)) (s : String)
    (he : lookupEnv envm "MAX_DRAWDOWN" = some s) (hp : pyFloat s = none) :
    isOkE (buildTradingOv envm cfg) = false := by
  unfold buildTradingOv
  cases h1 : dGetD ((getKey cfg "trading").getD (Yaml.dict [])) "markets" (Yaml.list []) with
  | error e => simp only [bind, Except.bind, h1, isOkE]
  | ok mfb =>
   cases h2 : dGetD ((getKey cfg "trading").getD (Yaml.dict []))
       "max_position_size" (Yaml.num (1/10)) with
   | error e => simp only [bind, Except.bind, h1, h2, isOkE]
   | ok mpsFb =>
    cases h3 : toFloatEnv (lookupEnv envm "MAX_POSITION_SIZE") mpsFb with
    | error e => simp only [bind, Except.bind, h1, h2, h3, isOkE]
    | ok mps =>
     cases h4 : dGetD ((getKey cfg "trading").getD (Yaml.dict [])) "risk" (Yaml.dict []) with
     | error e => simp only [bind, Except.bind, h1, h2, h3, h4, isOkE]
     | ok riskY =>
      cases h5 : dGetD riskY "max_drawdown" (Yaml.num (1/5)) with
      | error e => simp only [bind, Except.bind, h1, h2, h3, h4, h5, isOkE]
      | ok mdFb =>
          simp only [bind, Except.bind, h1, h2, h3, h4, h5]
          simp only [he, toFloatEnv, strToFloatE, hp, isOkE]

/-- Likewise for `VAR_LIMIT`. -/
theorem buildTradingOv_vl_fail (envm : List (String × String))
    (cfg : List (String × Yaml)) (s : String)
    (he : lookupEnv envm "VAR_LIMIT" = some s) (hp : pyFloat s = none) :
    isOkE (buildTradingOv envm cfg) = false := by
  unfold buildTradingOv
  cases h1 : dGetD ((getKey cfg "trading").getD (Yaml.dict [])) "markets" (Yaml.list []) with
  | error e => simp only [bind, Except.bind, h1, isOkE]
  | ok mfb =>
   cases h2 : dGetD ((getKey cfg "trading").getD (Yaml.dict []))
       "max_position_size" (Yaml.num (1/10)) with
   | error e => simp only [bind, Except.bind, h1, h2, isOkE]
   | ok mpsFb =>
    cases h3 : toFloatEnv (lookupEnv envm "MAX_POSITION_SIZE") mpsFb with
    | error e => simp only [bind, Except.bind, h1, h2, h3, isOkE]
    | ok mps =>
     cases h4 : dGetD ((getKey cfg "trading").getD (Yaml.dict [])) "risk" (Yaml.dict []) with
     | error e => simp only [bind, Except.bind, h1, h2, h3, h4, isOkE]
     | ok riskY =>
      cases h5 : dGetD riskY "max_drawdown" (Yaml.num (1/5)) with
      | error e => simp only [bind, Except.bind, h1, h2, h3, h4, h5, isOkE]
      | ok mdFb =>
       cases h6 : toFloatEnv (lookupEnv envm "MAX_DRAWDOWN") mdFb with
       | error e => simp only [bind, Except.bind, h1, h2, h3, h4, h5, h6, isOkE]
       | ok md =>
        cases h7 : dGetD riskY "var_limit" (Yaml.num (1/20)) with
        | error e => simp only [bind, Except.bind, h1, h2, h3, h4, h5, h6, h7, isOkE]
        | ok vlFb =>
            simp only [bind, Except.bind, h1, h2, h3, h4, h5, h6, h7]
            simp only [he, toFloatEnv, strToFloatE, hp, isOkE]

/-- Likewise for `MAX_LATENCY_MS` (an integer field). -/
theorem buildTradingOv_lat_fail (envm : List (String × String))
    (cfg : List (String × Yaml)) (s : String)
    (he : lookupEnv envm "MAX_LATENCY_MS" = some s) (hp : pyInt s = none) :
    isOkE (buildTradingOv envm cfg) = false := by
  unfold buildTradingOv
  cases h1 : dGetD ((getKey cfg "trading").getD (Yaml.dict [])) "markets" (Yaml.list []) with
  | error e => simp only [bind, Except.bind, h1, isOkE]
  | ok mfb =>
   cases h2 : dGetD ((getKey cfg "trading").getD (Yaml.dict []))
       "max_position_size" (Yaml.num (1/10)) with
   | error e => simp only [bind, Except.bind, h1, h2, isOkE]
   | ok mpsFb =>
    cases h3 : toFloatEnv (lookupEnv envm "MAX_POSITION_SIZE") mpsFb with
    | error e => simp only [bind, Except.bind, h1, h2, h3, isOkE]
    | ok mps =>
     cases h4 : dGetD ((getKey cfg "trading").getD (Yaml.dict [])) "risk" (Yaml.dict []) with
     | error e => simp only [bind, Except.bind, h1, h2, h3, h4, isOkE]
     | ok riskY =>
      cases h5 : dGetD riskY "max_drawdown" (Yaml.num (1/5)) with
      | error e => simp only [bind, Except.bind, h1, h2, h3, h4, h5, isOkE]
      | ok mdFb =>
       cases h6 : toFloatEnv (lookupEnv envm "MAX_DRAWDOWN") mdFb with
       | error e => simp only [bind, Except.bind, h1, h2, h3, h4, h5, h6, isOkE]
       | ok md =>
        cases h7 : dGetD riskY "var_limit" (Yaml.num (1/20)) with
        | error e => simp only [bind, Except.bind, h1, h2, h3, h4, h5, h6, h7, isOkE]
        | ok vlFb =>
         cases h8 : toFloatEnv (lookupEnv envm "VAR_LIMIT") vlFb with
         | error e =>
             simp only [bind, Except.bind, h1, h2, h3, h4, h5, h6, h7, h8, isOkE]
         | ok vl =>
          cases h9 : dGetD riskY "max_latency_ms" (Yaml.num 1000) with
          | error e =>
              simp only [bind, Except.bind, h1, h2, h3, h4, h5, h6, h7, h8, h9, isOkE]
          | ok latFb =>
              simp only [bind, Except.bind, h1, h2, h3, h4, h5, h6, h7, h8, h9]
              simp only [he, toIntEnv, strToIntE, hp, isOkE]

/-- A failing trading section fails the whole override literal. -/
theorem buildEnvOverride_fail (envm : List (String × String)) (cfg : Yaml)
    (h : ∀ c, cfg = Yaml.dict c → isOkE (buildTradingOv envm c) = false) :
    isOkE (buildEnvOverride envm cfg) = false := by
  cases cfg with
  | dict c =>
      unfold buildEnvOverride
      cases ha : buildAppOv envm c with
      | error e => simp only [bind, Except.bind, ha, isOkE]
      | ok appOv =>
          cases hd : buildDataOv envm c with
          | error e => simp only [bind, Except.bind, ha, hd, isOkE]
          | ok dataOv =>
              cases ht : buildTradingOv envm c with
              | error e => simp only [bind, Except.bind, ha, hd, ht, isOkE]
              | ok tradOv =>
                  have := h c rfl
                  rw [ht] at this
                  exact absurd this (by simp [isOkE])
  | str sv => rfl
  | num q => rfl
  | bool b => rfl
  | null => rfl
  | list l => rfl

/-- **C8.**  Each recognized numeric environment variable
(`MAX_POSITION_SIZE`, `MAX_DRAWDOWN`, `VAR_LIMIT` as floats,
`MAX_LATENCY_MS` as an integer) set to a string its target conversion
cannot parse makes the environment override builder raise (`ValueError`
from `float()`/`int()`, the code's form of the spec's `ConfigTypeError`),
and — last conjunct — the whole settings construction aborts. -/
theorem env_numeric_parse_failure (envm : List (String × String)) (cfg : Yaml)
    (w : World) (env : Environment) (s : String) :
    ((lookupEnv envm "MAX_POSITION_SIZE" = some s ∧ pyFloat s = none) →
      isOkE (buildEnvOverride envm cfg) = false) ∧
    ((lookupEnv envm "MAX_DRAWDOWN" = some s ∧ pyFloat s = none) →
      isOkE (buildEnvOverride envm cfg) = false) ∧
    ((lookupEnv envm "VAR_LIMIT" = some s ∧ pyFloat s = none) →
      isOkE (buildEnvOverride envm cfg) = false) ∧
    ((lookupEnv envm "MAX_LATENCY_MS" = some s ∧ pyInt s = none) →
      isOkE (buildEnvOverride envm cfg) = false) ∧
    ((lookupEnv w.envVars "MAX_POSITION_SIZE" = some s ∧ pyFloat s = none) →
      isOkE (get_settings w env) = false) := by
  refine ⟨?_, ?_, ?_, ?_, ?_⟩
  · intro h
    exact buildEnvOverride_fail _ _
      (fun c _ => buildTradingOv_mps_fail envm c s h.1 h.2)
  · intro h
    exact buildEnvOverride_fail _ _
      (fun c _ => buildTradingOv_md_fail envm c s h.1 h.2)
  · intro h
    exact buildEnvOverride_fail _ _
      (fun c _ => buildTradingOv_vl_fail envm c s h.1 h.2)
  · intro h
    exact buildEnvOverride_fail _ _
      (fun c _ => buildTradingOv_lat_fail envm c s h.1 h.2)
  · intro h
    unfold get_settings
    cases g1 : load_yaml w.defaultFile "configs/default.yaml" with
    | error e => simp only [bind, Except.bind, g1, isOkE]
    | ok dc =>
        cases g2 : load_yaml (w.envFile env) ("configs/" ++ envValue env ++ ".yaml") with
        | error e => simp only [bind, Except.bind, g1, g2, isOkE]
        | ok ec =>
            cases g3 : pyMerge dc ec with
            | error e => simp only [bind, Except.bind, g1, g2, g3, isOkE]
            | ok config =>
                have hov : isOkE (buildEnvOverride w.envVars config) = false :=
                  buildEnvOverride_fail _ _
                    (fun c _ => buildTradingOv_mps_fail w.envVars c s h.1 h.2)
                obtain ⟨e, hov2⟩ := (isOkE_false_iff _).mp hov
                simp only [bind, Except.bind, g1, g2, g3, hov2, isOkE]

/-- Witness for `env_numeric_parse_failure`: `"abc"` is no float, `"7.5"`
is no int, and each variable aborts the builder (and the pipeline). -/
theorem env_numeric_parse_failure_w :
    pyFloat "abc" = none ∧ pyInt "7.5" = none ∧
    isOkE (buildEnvOverride [("MAX_POSITION_SIZE", "abc")] (Yaml.dict [])) = false ∧
    isOkE (buildEnvOverride [("MAX_DRAWDOWN", "abc")] (Yaml.dict [])) = false ∧
    isOkE (buildEnvOverride [("VAR_LIMIT", "abc")] (Yaml.dict [])) = false ∧
    isOkE (buildEnvOverride [("MAX_LATENCY_MS", "7.5")] (Yaml.dict [])) = false ∧
    isOkE (get_settings wBad Environment.dev) = false := by
  refine ⟨rfl, rfl, ?_, ?_, ?_, ?_, ?_⟩
  · exact (env_numeric_parse_failure [("MAX_POSITION_SIZE", "abc")] (Yaml.dict [])
      wBad Environment.dev "abc").1 ⟨rfl, rfl⟩
  · exact (env_numeric_parse_failure [("MAX_DRAWDOWN", "abc")] (Yaml.dict [])
      wBad Environment.dev "abc").2.1 ⟨rfl, rfl⟩
  · exact (env_numeric_parse_failure [("VAR_LIMIT", "abc")] (Yaml.dict [])
      wBad Environment.dev "abc").2.2.1 ⟨rfl, rfl⟩
  · exact (env_numeric_parse_failure [("MAX_LATENCY_MS", "7.5")] (Yaml.dict [])
      wBad Environment.dev "7.5").2.2.2.1 ⟨rfl, rfl⟩
  · exact (env_numeric_parse_failure [] (Yaml.dict [])
      wBad Environment.dev "abc").2.2.2.2 ⟨rfl, rfl⟩

theorem inUnitRange_iff (q : ℚ) : inUnitRange q = true ↔ (0 < q ∧ q ≤ 1) := by
  simp [inUnitRange]

set_option maxHeartbeats 1000000

/-- **C6.**  `Settings` construction accepts the three `(0, 1]`-constrained
fractions (`max_drawdown`, `var_limit`, `max_position_size`) exactly when
each lies in `(0, 1]`; in particular `1.5` and `0` are rejected (with the
validator's range `ValidationError`, the code's form of the spec's
`ConfigValidationError`) and `1.0` is accepted. -/
theorem risk_fraction_ranges :
    (∀ md vl mps : ℚ,
      isOkE (settingsValidate (riskSkeleton md vl mps) [] []) = true ↔
        ((0 < md ∧ md ≤ 1) ∧ (0 < vl ∧ vl ≤ 1) ∧ (0 < mps ∧ mps ≤ 1))) ∧
    isOkE (settingsValidate (riskSkeleton (3/2) 1 1) [] []) = false ∧
    isOkE (settingsValidate (riskSkeleton 0 1 1) [] []) = false ∧
    isOkE (settingsValidate (riskSkeleton 1 1 1) [] []) = true := by
  have hiff : ∀ md vl mps : ℚ,
      isOkE (settingsValidate (riskSkeleton md vl mps) [] []) = true ↔
        ((0 < md ∧ md ≤ 1) ∧ (0 < vl ∧ vl ≤ 1) ∧ (0 < mps ∧ mps ≤ 1)) := by
    intro md vl mps
    simp [settingsValidate, riskSkeleton, setKey, getKey, fieldDict, fieldStrD,
      fieldNum, fieldFraction, fieldOptStr, fieldOptInt, validateMarkets,
      yamlStrList, marketsOk, validateProviders, fieldStr, validLogLevels,
      validMarkets, allowedTopKeys, bind, Except.bind, pure, Except.pure]
    split_ifs <;> simp_all [inUnitRange_iff, isOkE]
  refine ⟨hiff, ?_, ?_, ?_⟩
  · cases hx : isOkE (settingsValidate (riskSkeleton (3/2) 1 1) [] []) with
    | false => rfl
    | true => exact absurd ((hiff _ _ _).mp hx).1.2 (by norm_num)
  · cases hx : isOkE (settingsValidate (riskSkeleton 0 1 1) [] []) with
    | false => rfl
    | true => exact absurd ((hiff _ _ _).mp hx).1.1 (by norm_num)
  · exact (hiff 1 1 1).mpr (by norm_num)

theorem getKey_append_of_none (d1 d2 : List (String × Yaml)) (k : String)
    (h : getKey d1 k = none) : getKey (d1 ++ d2) k = getKey d2 k := by
  induction d1 with
  | nil => rfl
  | cons hd tl ih =>
      obtain ⟨k1, v1⟩ := hd
      by_cases h1 : k1 = k
      · simp [getKey, h1] at h
      · simp [getKey, h1] at h ⊢
        exact ih h

theorem setKey_absent (d : List (String × Yaml)) (k : String) (v : Yaml)
    (h : getKey d k = none) : setKey d k v = d ++ [(k, v)] := by
  induction d with
  | nil => rfl
  | cons hd tl ih =>
      obtain ⟨k1, v1⟩ := hd
      by_cases h1 : k1 = k
      · simp [getKey, h1] at h
      · simp [getKey, h1] at h
        simp [setKey, h1, ih h]

/-- Merging an override whose keys are all fresh appends its bindings. -/
theorem mergeLoop_append (ov : List (String × Yaml)) :
    ∀ result, (∀ kv ∈ ov, getKey result kv.1 = none) →
      (ov.map Prod.fst).Nodup →
      mergeLoop result ov = some (result ++ ov) := by
  induction ov with
  | nil =>
      intro result _ _
      simp [mergeLoop]
  | cons hd tl ih =>
      obtain ⟨k1, v1⟩ := hd
      intro result habs hnd
      simp only [List.map_cons, List.nodup_cons] at hnd
      obtain ⟨hk1, hndtl⟩ := hnd
      have hg : getKey result k1 = none := habs (k1, v1) (List.mem_cons_self _ _)
      have hset : setKey result k1 v1 = result ++ [(k1, v1)] :=
        setKey_absent _ _ _ hg
      have habs' : ∀ kv ∈ tl, getKey (result ++ [(k1, v1)]) kv.1 = none := by
        intro kv hkv
        have hne : kv.1 ≠ k1 := by
          intro hh
          exact hk1 (hh ▸ List.mem_map_of_mem Prod.fst hkv)
        have hne' : ¬ k1 = kv.1 := fun hh => hne hh.symm
        rw [getKey_append_of_none _ _ _ (habs kv (List.mem_cons_of_mem _ hkv))]
        simp [getKey, hne']
      have htail := ih (result ++ [(k1, v1)]) habs' hndtl
      cases v1
      case dict d =>
        simp only [mergeLoop, hg, hset, htail]
        simp
      all_goals
        (simp only [mergeLoop, hset, htail];
         simp)

/-- **C3.**  `init_settings` caches: once a first invocation has produced a
settings value, any later invocation — whatever environment it passes and
however the files and environment have changed — returns that same cached
value without re-running the pipeline. -/
theorem init_settings_cached (w1 w2 : World) (e1 e2 : Environment)
    (r : SettingsV × Option SettingsV)
    (h : init_settings none w1 e1 = Except.ok r) :
    init_settings r.2 w2 e2 = Except.ok r ∧ r.2 = some r.1 := by
  unfold init_settings at h
  cases hg : get_settings w1 e1 with
  | ok s =>
      rw [hg] at h
      injection h with h2
      subst h2
      exact ⟨rfl, rfl⟩
  | error e =>
      rw [hg] at h
      exact absurd h (by simp)

/-- `mergeVal` on a dict override that returns lifts to `pyMerge`. -/
theorem pyMerge_dict (b : Yaml) (o : List (String × Yaml)) (r : Yaml)
    (h : mergeVal b o = some r) : pyMerge b (Yaml.dict o) = Except.ok r := by
  simp [pyMerge, h]

/-- `get_settings` in terms of the results of its stages. -/
theorem get_settings_eval (w : World) (env : Environment) (dc ec config : Yaml)
    (ov entries : List (String × Yaml))
    (strategies : List (String × StrategyRec)) (rules : List (String × RiskPolicyRec))
    (s : SettingsV)
    (h1 : load_yaml w.defaultFile "configs/default.yaml" = Except.ok dc)
    (h2 : load_yaml (w.envFile env) ("configs/" ++ envValue env ++ ".yaml") = Except.ok ec)
    (h3 : pyMerge dc ec = Except.ok config)
    (h4 : buildEnvOverride w.envVars config = Except.ok ov)
    (h5 : pyMerge config (Yaml.dict ov) = Except.ok (Yaml.dict entries))
    (h6 : load_strategy_configs w.strategyFiles = Except.ok strategies)
    (h7 : load_rules_configs w.rulesFiles = Except.ok rules)
    (h8 : settingsValidate entries strategies rules = Except.ok s) :
    get_settings w env = Except.ok s := by
  unfold get_settings
  simp only [bind, Except.bind, h1, h2, h3, h4, h5, h6, h7, h8, Except.mapError]

/-- On `w0` the override builder produces exactly `defaultTree`. -/
theorem w0_override_eval :
    buildEnvOverride w0.envVars (Yaml.dict []) = Except.ok defaultTree := by
  unfold buildEnvOverride
  simp only [bind, Except.bind,
    show buildAppOv w0.envVars [] = Except.ok (Yaml.dict
      [("name", Yaml.str "traderai"), ("log_level", Yaml.str "INFO")]) from rfl,
    show buildDataOv w0.envVars [] = Except.ok (Yaml.dict
      [("providers", Yaml.list []),
       ("cache", Yaml.dict [("redis_url", Yaml.str "redis://localhost:6379/0")])]) from rfl,
    show buildTradingOv w0.envVars [] = Except.ok (Yaml.dict
      [("markets", Yaml.list [Yaml.str "stocks"]),
       ("max_position_size", Yaml.num 1),
       ("risk", Yaml.dict
         [("max_drawdown", Yaml.num 1),
          ("var_limit", Yaml.num 1),
          ("max_latency_ms", Yaml.num 1000)])]) from rfl]
  rfl

/-- Merging the override onto the empty base appends all its bindings. -/
theorem w0_merge_eval : mergeVal (Yaml.dict []) defaultTree
    = some (Yaml.dict defaultTree) := by
  have h := mergeLoop_append defaultTree [] (fun kv _ => rfl) (by simp [defaultTree])
  simp only [mergeVal, h, List.nil_append, Option.map_some']

/-- The whole pipeline on `w0` produces `s0`. -/
theorem w0_get_settings_eval : get_settings w0 Environment.dev = Except.ok s0 :=
  get_settings_eval w0 Environment.dev (Yaml.dict []) (Yaml.dict [])
    (Yaml.dict []) defaultTree defaultTree [] [] s0
    rfl rfl
    (by simp [pyMerge, mergeVal, mergeLoop])
    w0_override_eval
    (pyMerge_dict _ _ _ w0_merge_eval)
    rfl rfl rfl

/-- A first call with an empty cache returns the pipeline result and
caches it. -/
theorem init_settings_first (w : World) (env : Environment) (s : SettingsV)
    (h : get_settings w env = Except.ok s) :
    init_settings none w env = Except.ok (s, some s) := by
  unfold init_settings
  rw [h]

/-- Witness for `init_settings_cached`: the pipeline succeeds on `w0`
(producing `s0`), and the second call — on a world whose files are now
malformed and whose environment is gone — still returns `s0`. -/
theorem init_settings_cached_w :
    init_settings (some s0) wChanged Environment.prod = Except.ok (s0, some s0) ∧
    (some s0 : Option SettingsV) = some s0 :=
  init_settings_cached w0 wChanged Environment.dev Environment.prod
    (s0, some s0) (init_settings_first w0 Environment.dev s0 w0_get_settings_eval)
